import Mathlib

/-
Verification development for the pipeline-validation command of ec-cli:
the validation orchestration and multi-format report rendering layer.

The repository sources available here pin the observable behaviour through
the unit tests of `validatePipelineCmd` (cmd package); the orchestration
core itself is reproduced from the specification (Policy Source Resolver,
Result Aggregator, Output Renderer, Command Driver).  Every definition that
is reconstructed from the specification rather than read off source code
says so in its doc comment.
-/

set_option autoImplicit false

namespace ECCli

/-- Kind tag of a policy source, mirroring `source.PolicyKind` and
`source.DataKind` used by the unit tests. -/
inductive PolicyType where
  | PolicyKind : PolicyType
  | DataKind : PolicyType
  deriving DecidableEq, Repr

/-- A typed policy source descriptor, mirroring `source.PolicyUrl` from the
unit tests: a location string tagged with its kind. -/
structure PolicyUrl where
  url : String
  kind : PolicyType
  deriving DecidableEq, Repr

/-- One policy violation or warning entry carried in a check result.
Modelled from the spec: the spec leaves Violation opaque beyond being a
structured record that must round-trip; we carry its message text. -/
structure Violation where
  msg : String
  deriving DecidableEq, Repr

/-- One file's validation outcome, mirroring conftest `output.CheckResult`
as used by the unit tests: fileName, namespace, success flag and ordered
violation and warning lists.  The Go field `Namespace` is rendered here as
`nameSpace` because `namespace` is reserved in Lean. -/
structure CheckResult where
  fileName : String
  nameSpace : String
  success : Bool
  violations : List Violation
  warnings : List Violation
  deriving DecidableEq, Repr

/-- The value returned by one Validation Invoker call, mirroring
`output2.Output` from the unit tests: a `PolicyCheck` list of check
results. -/
structure Output where
  policyCheck : List CheckResult
  deriving DecidableEq, Repr

/-- One collected per-file failure.  Modelled from the spec: ValidationFailure
is `\x7b subject: string (the file path), cause: error \x7d`; the cause is opaque
error text. -/
structure ValidationFailure where
  subject : String
  cause : String
  deriving DecidableEq, Repr

/-- Modelled from the spec: the Policy Source Resolver (spec section 4.1) turns the
ordered list of policy locations and the ordered list of data locations into
one ordered sequence, policy-kind entries first in their given order, then
data-kind entries in their given order, with no entry dropped, merged or
deduplicated. -/
def resolveSources (policyUrls dataUrls : List String) : List PolicyUrl :=
  policyUrls.map (fun u => ⟨u, PolicyType.PolicyKind⟩)
    ++ dataUrls.map (fun u => ⟨u, PolicyType.DataKind⟩)

/-- The Validation Invoker capability consumed by the core, mirroring the
test double signature `func(ctx, fs, fpath, sources, namespace) (*output2.Output, error)`.
The cancellation context and filesystem arguments carry no observable state in
this model and are elided. -/
abbrev Invoker := String → List PolicyUrl → String → Except String Output

/-- Outcome of driving the Validation Invoker over all target files:
the sequence of file paths on which the invoker was actually called (in call
order), the ordered result list and the ordered failure list. -/
structure AggOutcome where
  invoked : List String
  results : List CheckResult
  failures : List ValidationFailure
  deriving DecidableEq, Repr

/-- Modelled from the spec and the observed test output: the success flag of
a report entry is computed when the entry joins the report, and it is set
exactly when the entry's violation list is empty.  The unit test doubles
never set the flag on the results they return, yet every rendered entry
carries `success: true` together with an empty violation list, so the
computation belongs to the core, not to the invoker. -/
def setSuccess (r : CheckResult) : CheckResult :=
  { r with success := r.violations.isEmpty }

/-- Modelled from the spec: the Result Aggregator (spec section 4.3) invokes the
validator once per target file in input order; on success it appends the
returned check results (with their success flag computed) to the result
list, on error it appends `\x7bsubject: filePath, cause: error\x7d` to the failure
list, and in both cases it continues with the next file (no short-circuit).
The `invoked` component records each application of the validator, once per
`let r := v f`, so that call count and call order are part of the observable
outcome. -/
def aggregateResults (v : String → Except String Output) :
    List String → AggOutcome
  | [] => ⟨[], [], []⟩
  | f :: rest =>
    let r := v f
    let tail := aggregateResults v rest
    match r with
    | Except.ok out =>
        ⟨f :: tail.invoked, out.policyCheck.map setSuccess ++ tail.results,
          tail.failures⟩
    | Except.error e =>
        ⟨f :: tail.invoked, tail.results, ⟨f, e⟩ :: tail.failures⟩

/-- Modelled from the spec: the pluralized count header of the combined failure
message: "1 error occurred:" for a single failure, "N errors occurred:"
otherwise. -/
def countHeader (n : Nat) : String :=
  if n = 1 then "1 error occurred:" else toString n ++ " errors occurred:"

/-- Modelled from the spec: the combined failure message (spec sections 4.3 and 8.4):
the pluralized count header followed by one bulleted line per failure in
collection order, each line being exactly the failure's cause text. -/
def formatErrors (es : List ValidationFailure) : String :=
  countHeader es.length ++ String.join (es.map (fun e => "\n\t* " ++ e.cause)) ++ "\n"

theorem aggregateResults_invoked (v : String → Except String Output) :
    ∀ files : List String, (aggregateResults v files).invoked = files := by
  intro files
  induction files with
  | nil => rfl
  | cons f rest ih =>
      simp only [aggregateResults]
      cases v f <;> simp [ih]

theorem aggregateResults_failures (v : String → Except String Output) :
    ∀ files : List String,
      (aggregateResults v files).failures
        = files.filterMap (fun f =>
            match v f with
            | Except.ok _ => none
            | Except.error e => some ⟨f, e⟩) := by
  intro files
  induction files with
  | nil => rfl
  | cons f rest ih =>
      simp only [aggregateResults, List.filterMap]
      cases v f <;> simp [ih]

theorem aggregateResults_results (v : String → Except String Output) :
    ∀ files : List String,
      (aggregateResults v files).results
        = (files.map (fun f =>
            match v f with
            | Except.ok out => out.policyCheck.map setSuccess
            | Except.error _ => [])).flatten := by
  intro files
  induction files with
  | nil => rfl
  | cons f rest ih =>
      simp only [aggregateResults, List.map, List.flatten]
      cases v f <;> simp [ih]

theorem aggregateResults_failures_nil_iff (v : String → Except String Output)
    (files : List String) :
    (aggregateResults v files).failures = []
      ↔ ∀ f ∈ files, ∃ out, v f = Except.ok out := by
  rw [aggregateResults_failures]
  constructor
  · intro h f hf
    cases hv : v f with
    | ok out => exact ⟨out, rfl⟩
    | error e =>
        exfalso
        have : (⟨f, e⟩ : ValidationFailure) ∈ ([] : List ValidationFailure) := by
          rw [← h]
          exact List.mem_filterMap.mpr ⟨f, hf, by simp [hv]⟩
        simp at this
  · intro h
    rw [List.filterMap_eq_nil_iff]
    intro f hf
    obtain ⟨out, hout⟩ := h f hf
    simp [hout]

/-- An output format recognised by the Output Renderer.  Modelled from the
spec: the supported set observed in the tests is json and yaml. -/
inductive OutputFormat where
  | json : OutputFormat
  | yaml : OutputFormat
  deriving DecidableEq, Repr

/-- One requested rendering, mirroring the `--output format` /
`--output format=path` option: a format plus an optional file destination;
no destination means the command's standard output stream. -/
structure OutputSpec where
  format : OutputFormat
  destination : Option String
  deriving DecidableEq, Repr

/-- A structural serialization value: the common data model of the JSON and
YAML renderings, used to state losslessness independently of bytes. -/
inductive JVal where
  | str : String → JVal
  | bool : Bool → JVal
  | arr : List JVal → JVal
  | obj : List (String × JVal) → JVal

/-- Encode one violation structurally: its message text as a scalar. -/
def encodeViolation (v : Violation) : JVal :=
  JVal.str v.msg

/-- Structural encoding of one check result in the JSON field order observed
in the unit tests: filename, namespace, violations, warnings, success. -/
def encodeResultJ (r : CheckResult) : JVal :=
  JVal.obj
    [("filename", JVal.str r.fileName),
     ("namespace", JVal.str r.nameSpace),
     ("violations", JVal.arr (r.violations.map encodeViolation)),
     ("warnings", JVal.arr (r.warnings.map encodeViolation)),
     ("success", JVal.bool r.success)]

/-- Structural encoding of one check result in the YAML field order observed
in the unit tests: filename, namespace, success, violations, warnings. -/
def encodeResultY (r : CheckResult) : JVal :=
  JVal.obj
    [("filename", JVal.str r.fileName),
     ("namespace", JVal.str r.nameSpace),
     ("success", JVal.bool r.success),
     ("violations", JVal.arr (r.violations.map encodeViolation)),
     ("warnings", JVal.arr (r.warnings.map encodeViolation))]

/-- Structural encoding of a whole report as a JSON array. -/
def encodeReportJ (rs : List CheckResult) : JVal :=
  JVal.arr (rs.map encodeResultJ)

/-- Structural encoding of a whole report as a YAML sequence. -/
def encodeReportY (rs : List CheckResult) : JVal :=
  JVal.arr (rs.map encodeResultY)

/-- Look a key up in the field list of a serialized record (first match). -/
def lookupField (fields : List (String × JVal)) (k : String) : Option JVal :=
  match fields with
  | [] => none
  | kv :: rest => if kv.1 = k then some kv.2 else lookupField rest k

/-- Read a scalar string back from a serialization value. -/
def asStr (j : JVal) : Option String :=
  match j with
  | JVal.str s => some s
  | _ => none

/-- Read a boolean back from a serialization value. -/
def asBool (j : JVal) : Option Bool :=
  match j with
  | JVal.bool b => some b
  | _ => none

/-- Decode one violation from its structural serialization. -/
def decodeViolation (j : JVal) : Option Violation :=
  match j with
  | JVal.str s => some ⟨s⟩
  | _ => none

/-- Decode every element of a serialized sequence, failing if any element
fails. -/
def decodeAll {A : Type} (f : JVal → Option A) : List JVal → Option (List A)
  | [] => some []
  | x :: xs =>
    match f x, decodeAll f xs with
    | some a, some rest => some (a :: rest)
    | _, _ => none

/-- Decode a violation list from its structural serialization. -/
def asViolations (j : JVal) : Option (List Violation) :=
  match j with
  | JVal.arr xs => decodeAll decodeViolation xs
  | _ => none

/-- Decode one check result from a serialized record by field name, so the
same decoder reads both the JSON and the YAML field orders. -/
def decodeResult (j : JVal) : Option CheckResult :=
  match j with
  | JVal.obj fields =>
    match lookupField fields "filename", lookupField fields "namespace",
        lookupField fields "violations", lookupField fields "warnings",
        lookupField fields "success" with
    | some jf, some jn, some jv, some jw, some js =>
      match asStr jf, asStr jn, asViolations jv, asViolations jw, asBool js with
      | some f, some n, some vs, some ws, some s => some ⟨f, n, s, vs, ws⟩
      | _, _, _, _, _ => none
    | _, _, _, _, _ => none
  | _ => none

/-- Decode a whole report from its structural serialization. -/
def decodeReport (j : JVal) : Option (List CheckResult) :=
  match j with
  | JVal.arr xs => decodeAll decodeResult xs
  | _ => none

theorem decodeViolation_encodeViolation (v : Violation) :
    decodeViolation (encodeViolation v) = some v := rfl

theorem decodeAll_encodeViolation (vs : List Violation) :
    decodeAll decodeViolation (vs.map encodeViolation) = some vs := by
  induction vs with
  | nil => rfl
  | cons v rest ih =>
      simp [decodeAll, decodeViolation_encodeViolation, ih]

theorem decodeResult_encodeResultJ (r : CheckResult) :
    decodeResult (encodeResultJ r) = some r := by
  simp [decodeResult, encodeResultJ, lookupField, asStr, asBool, asViolations,
    decodeAll_encodeViolation]

theorem decodeResult_encodeResultY (r : CheckResult) :
    decodeResult (encodeResultY r) = some r := by
  simp [decodeResult, encodeResultY, lookupField, asStr, asBool, asViolations,
    decodeAll_encodeViolation]

theorem decodeReport_encodeReportJ (rs : List CheckResult) :
    decodeReport (encodeReportJ rs) = some rs := by
  simp only [decodeReport, encodeReportJ]
  induction rs with
  | nil => rfl
  | cons r rest ih =>
      simp [decodeAll, decodeResult_encodeResultJ, ih]

theorem decodeReport_encodeReportY (rs : List CheckResult) :
    decodeReport (encodeReportY rs) = some rs := by
  simp only [decodeReport, encodeReportY]
  induction rs with
  | nil => rfl
  | cons r rest ih =>
      simp [decodeAll, decodeResult_encodeResultY, ih]

/-- Escape one character for a JSON string literal: quote, backslash and the
control characters appearing in this model's data are escaped, every other
character passes through. -/
def jsonEscapeChar (c : Char) : String :=
  if c = '"' then "\\\""
  else if c = '\\' then "\\\\"
  else if c = '\n' then "\\n"
  else if c = '\t' then "\\t"
  else if c = '\r' then "\\r"
  else String.singleton c

/-- Render a JSON string literal. -/
def jsonString (s : String) : String :=
  "\"" ++ String.join (s.data.map jsonEscapeChar) ++ "\""

/-- Render a violation list as a JSON array of its message strings. -/
def renderJsonViolations (vs : List Violation) : String :=
  "[" ++ String.intercalate "," (vs.map (fun v => jsonString v.msg)) ++ "]"

/-- Modelled from the spec and pinned byte-for-byte by the unit tests: the
compact JSON record for one check result, keys in the fixed order
filename, namespace, violations, warnings, success, with empty violation
and warning lists rendered as explicit empty arrays. -/
def renderJsonResult (r : CheckResult) : String :=
  "\x7b\"filename\":" ++ jsonString r.fileName
    ++ ",\"namespace\":" ++ jsonString r.nameSpace
    ++ ",\"violations\":" ++ renderJsonViolations r.violations
    ++ ",\"warnings\":" ++ renderJsonViolations r.warnings
    ++ ",\"success\":" ++ (if r.success then "true" else "false") ++ "\x7d"

/-- The JSON rendering of a whole report: a compact JSON array of the
records, in report order. -/
def renderJsonReport (rs : List CheckResult) : String :=
  "[" ++ String.intercalate "," (rs.map renderJsonResult) ++ "]"

/-- Render a violation list as a YAML flow sequence of plain scalars; the
unit tests pin the empty case to the literal empty flow sequence. -/
def renderYamlViolations (vs : List Violation) : String :=
  "[" ++ String.intercalate ", " (vs.map (fun v => v.msg)) ++ "]"

/-- Modelled from the spec and pinned byte-for-byte by the unit tests: the
YAML block-mapping entry for one check result, keys in the fixed order
filename, namespace, success, violations, warnings, scalar values as plain
scalars, empty lists as explicit empty flow sequences. -/
def renderYamlResult (r : CheckResult) : String :=
  "- filename: " ++ r.fileName
    ++ "\n  namespace: " ++ r.nameSpace
    ++ "\n  success: " ++ (if r.success then "true" else "false")
    ++ "\n  violations: " ++ renderYamlViolations r.violations
    ++ "\n  warnings: " ++ renderYamlViolations r.warnings ++ "\n"

/-- The YAML rendering of a whole report: a block sequence with one entry
per record, in report order. -/
def renderYamlReport (rs : List CheckResult) : String :=
  String.join (rs.map renderYamlResult)

/-- Dispatch one requested format to its report encoder. -/
def renderFormat (fmt : OutputFormat) (rs : List CheckResult) : String :=
  match fmt with
  | OutputFormat.json => renderJsonReport rs
  | OutputFormat.yaml => renderYamlReport rs

/-- Modelled from the spec: when no output option was supplied, a single
default spec requesting JSON on standard output is assumed. -/
def effectiveSpecs (specs : List OutputSpec) : List OutputSpec :=
  match specs with
  | [] => [⟨OutputFormat.json, none⟩]
  | _ => specs

/-- Modelled from the spec: the Output Renderer (spec section 4.4) produces exactly
one serialization per requested spec, in spec order; a spec without a
destination appends its serialization to the standard output stream, a spec
with a destination path produces one full-content write to that path.  The
result is the bytes reaching standard output and the ordered list of
(path, full content) file writes. -/
def renderAll (report : List CheckResult) :
    List OutputSpec → String × List (String × String)
  | [] => ("", [])
  | spec :: rest =>
    let tail := renderAll report rest
    match spec.destination with
    | none => (renderFormat spec.format report ++ tail.1, tail.2)
    | some p => (tail.1, (p, renderFormat spec.format report) :: tail.2)

/-- The Output Renderer applied to the effective spec list. -/
def renderOutputs (report : List CheckResult) (specs : List OutputSpec) :
    String × List (String × String) :=
  renderAll report (effectiveSpecs specs)

/-- A filesystem snapshot: each path maps to its content, when the file
exists. -/
abbrev Fs := String → Option String

/-- Apply a sequence of full-content writes to a filesystem: each write
fully replaces the prior content of its path, later writes winning. -/
def applyWrites (fs : Fs) (ws : List (String × String)) : Fs :=
  ws.foldl (fun acc w => fun p => if p = w.1 then some w.2 else acc p) fs

/-- The observable outcome of one command invocation: the bytes written to
standard output, the filesystem after the run, and the terminal error. -/
structure RunResult where
  stdout : String
  fs : Fs
  err : Option String

/-- The default evaluation namespace of the pipeline validation command,
pinned by the unit tests: "pipeline.main". -/
def defaultNamespace : String := "pipeline.main"

/-- Modelled from the spec: the namespace passed to every Validation Invoker
call: the value of the namespace option when supplied, the default
otherwise. -/
def resolveNamespace (nsOpt : Option String) : String :=
  match nsOpt with
  | none => defaultNamespace
  | some n => n

/-- The aggregation outcome of one command invocation, before rendering. -/
def pipelineOutcome (v : Invoker) (files policies datas : List String)
    (nsOpt : Option String) : AggOutcome :=
  aggregateResults
    (fun f => v f (resolveSources policies datas) (resolveNamespace nsOpt))
    files

/-- Modelled from the spec: the Command Driver of the pipeline validation
command (spec section 4.5), as one full run over an initial filesystem:
resolve the policy and data sources and the namespace, drive the Result
Aggregator with the injected Validation Invoker over the target files in
order, then either render the aggregated report to every requested
destination with terminal error none, or, on any validation failure, render
nothing (standard output stays empty, the filesystem is untouched) and
surface the combined failure message as the terminal error. -/
def validatePipelineCmd (v : Invoker) (files policies datas : List String)
    (nsOpt : Option String) (outputs : List OutputSpec) (fs0 : Fs) : RunResult :=
  let agg := pipelineOutcome v files policies datas nsOpt
  match agg.failures with
  | [] =>
    let rendered := renderOutputs agg.results outputs
    ⟨rendered.1, applyWrites fs0 rendered.2, none⟩
  | e :: es => ⟨"", fs0, some (formatErrors (e :: es))⟩

/-- True exactly on the error outcome of one Validation Invoker call. -/
def isErr (r : Except String Output) : Bool :=
  match r with
  | Except.ok _ => false
  | Except.error _ => true

/-- The key sequence of a serialized record, in serialization order. -/
def objKeys (j : JVal) : List String :=
  match j with
  | JVal.obj fields => fields.map Prod.fst
  | _ => []

theorem aggregateResults_failure_subjects (v : String → Except String Output) :
    ∀ files : List String,
      (aggregateResults v files).failures.map ValidationFailure.subject
        = files.filter (fun f => isErr (v f)) := by
  intro files
  induction files with
  | nil => rfl
  | cons f rest ih =>
      simp only [aggregateResults, List.filter]
      cases hv : v f with
      | ok out => simp [isErr, hv, ih]
      | error e => simp [isErr, hv, ih]

theorem aggregateResults_singleton_ok (v : String → Except String Output) (ns : String) :
    ∀ files : List String,
      (∀ f ∈ files, ∃ r : CheckResult,
          v f = Except.ok ⟨[r]⟩ ∧ r.fileName = f ∧ r.nameSpace = ns) →
      (aggregateResults v files).failures = []
      ∧ (aggregateResults v files).results.map CheckResult.fileName = files
      ∧ ∀ r ∈ (aggregateResults v files).results, r.nameSpace = ns := by
  intro files
  induction files with
  | nil =>
      intro _
      exact ⟨rfl, rfl, by intro r hr; simp [aggregateResults] at hr⟩
  | cons f rest ih =>
      intro h
      obtain ⟨r, hv, hfn, hns⟩ := h f (List.mem_cons_self f rest)
      have hrest := ih (fun g hg => h g (List.mem_cons_of_mem f hg))
      refine ⟨?_, ?_, ?_⟩
      · simp only [aggregateResults, hv]
        exact hrest.1
      · simp only [aggregateResults, hv]
        simp [setSuccess, hfn, hrest.2.1]
      · intro r' hr'
        simp only [aggregateResults, hv] at hr'
        simp only [Output.policyCheck, List.map, List.singleton_append,
          List.mem_cons] at hr'
        rcases hr' with hEq | hMem
        · rw [hEq]
          simpa [setSuccess] using hns
        · exact hrest.2.2 r' hMem

/-- The namespace argument handed to every Validation Invoker call of a run
is the resolved namespace; with the option absent it is the default. -/
theorem pipelineOutcome_def (v : Invoker) (files policies datas : List String)
    (nsOpt : Option String) :
    pipelineOutcome v files policies datas nsOpt
      = aggregateResults
          (fun f => v f (resolveSources policies datas) (resolveNamespace nsOpt))
          files := rfl

/-- The failing test double of `TestValidatePipelineCommandErrors`: every
call returns an error whose text is the file path. -/
def vErrEcho : Invoker := fun f _ _ => Except.error f

/-- The succeeding test double of `TestValidatePipelineCommandOutput`: every
call returns one check result carrying the file path and the namespace it
was given, with nothing else set. -/
def vOkEcho : Invoker := fun f _ ns => Except.ok ⟨[⟨f, ns, false, [], []⟩]⟩

/-- The two target files used by the unit tests. -/
def testFiles : List String := ["/path/file1.yaml", "/path/file2.yaml"]

/-- An initially empty filesystem. -/
def fsEmpty : Fs := fun _ => none

/-- C1: whenever at least one target file fails validation, standard output
receives zero bytes, every file destination receives zero bytes (the
filesystem is left untouched), and the terminal error is non-nil: the
aggregated report and the failure outcome are mutually exclusive. -/
theorem C1_failure_emits_nothing (v : Invoker) (files policies datas : List String)
    (nsOpt : Option String) (outputs : List OutputSpec) (fs0 : Fs)
    (h : ∃ f ∈ files, ∃ e,
        v f (resolveSources policies datas) (resolveNamespace nsOpt) = Except.error e) :
    (validatePipelineCmd v files policies datas nsOpt outputs fs0).stdout = ""
    ∧ (∀ p, (validatePipelineCmd v files policies datas nsOpt outputs fs0).fs p = fs0 p)
    ∧ (validatePipelineCmd v files policies datas nsOpt outputs fs0).err ≠ none := by
  have hfail : (pipelineOutcome v files policies datas nsOpt).failures ≠ [] := by
    intro hnil
    obtain ⟨f, hf, e, he⟩ := h
    obtain ⟨out, hout⟩ := (aggregateResults_failures_nil_iff _ files).mp hnil f hf
    rw [he] at hout
    exact Except.noConfusion hout
  cases hes : (pipelineOutcome v files policies datas nsOpt).failures with
  | nil => exact absurd hes hfail
  | cons e es =>
      refine ⟨?_, ?_, ?_⟩ <;> simp [validatePipelineCmd, hes]

/-- C1 witness: on the two-file error scenario of the unit tests the
hypothesis holds and the command emits nothing and fails. -/
theorem C1_witness :
    (∃ f ∈ testFiles, ∃ e,
        vErrEcho f (resolveSources [] []) (resolveNamespace none) = Except.error e)
    ∧ ((validatePipelineCmd vErrEcho testFiles [] [] none [] fsEmpty).stdout = ""
        ∧ (∀ p, (validatePipelineCmd vErrEcho testFiles [] [] none [] fsEmpty).fs p = fsEmpty p)
        ∧ (validatePipelineCmd vErrEcho testFiles [] [] none [] fsEmpty).err ≠ none) :=
  ⟨⟨"/path/file1.yaml", by simp [testFiles], "/path/file1.yaml", rfl⟩,
    C1_failure_emits_nothing vErrEcho testFiles [] [] none [] fsEmpty
      ⟨"/path/file1.yaml", by simp [testFiles], "/path/file1.yaml", rfl⟩⟩

/-- C2: every failing run surfaces exactly the combined message: the
pluralized count header, then one bulleted line per failure in collection
(input) order, each line being exactly the invoker error's text. -/
theorem C2_combined_failure_message (v : Invoker) (files policies datas : List String)
    (nsOpt : Option String) (outputs : List OutputSpec) (fs0 : Fs)
    (h : (pipelineOutcome v files policies datas nsOpt).failures ≠ []) :
    (validatePipelineCmd v files policies datas nsOpt outputs fs0).err
      = some ((if (pipelineOutcome v files policies datas nsOpt).failures.length = 1
                then "1 error occurred:"
                else toString (pipelineOutcome v files policies datas nsOpt).failures.length
                  ++ " errors occurred:")
          ++ String.join ((pipelineOutcome v files policies datas nsOpt).failures.map
                (fun e => "\n\t* " ++ e.cause))
          ++ "\n")
    ∧ (pipelineOutcome v files policies datas nsOpt).failures
        = files.filterMap (fun f =>
            match v f (resolveSources policies datas) (resolveNamespace nsOpt) with
            | Except.ok _ => none
            | Except.error e => some ⟨f, e⟩) := by
  constructor
  · cases hes : (pipelineOutcome v files policies datas nsOpt).failures with
    | nil => exact absurd hes h
    | cons e es =>
        simp [validatePipelineCmd, hes, formatErrors, countHeader]
  · exact aggregateResults_failures _ files

/-- C2 witness: for the two failing files of the unit tests the combined
message is exactly the expected two-bullet text. -/
theorem C2_witness :
    (pipelineOutcome vErrEcho testFiles [] [] none).failures ≠ []
    ∧ (validatePipelineCmd vErrEcho testFiles [] [] none [] fsEmpty).err
        = some "2 errors occurred:\n\t* /path/file1.yaml\n\t* /path/file2.yaml\n" :=
  ⟨by decide,
    ((C2_combined_failure_message vErrEcho testFiles [] [] none [] fsEmpty
        (by decide)).1).trans (by decide)⟩

/-- C3: when every target file validates successfully and each invoker call
returns one check result carrying the file path and namespace it was given,
the run has no failures and the aggregated report lists exactly one entry
per input file, in input order, with matching fileName and namespace. -/
theorem C3_report_matches_inputs (v : Invoker) (files policies datas : List String)
    (nsOpt : Option String)
    (h : ∀ f ∈ files, ∃ r : CheckResult,
        v f (resolveSources policies datas) (resolveNamespace nsOpt) = Except.ok ⟨[r]⟩
        ∧ r.fileName = f ∧ r.nameSpace = resolveNamespace nsOpt) :
    (pipelineOutcome v files policies datas nsOpt).failures = []
    ∧ (pipelineOutcome v files policies datas nsOpt).results.length = files.length
    ∧ (pipelineOutcome v files policies datas nsOpt).results.map CheckResult.fileName = files
    ∧ ∀ r ∈ (pipelineOutcome v files policies datas nsOpt).results,
        r.nameSpace = resolveNamespace nsOpt := by
  have h2 := aggregateResults_singleton_ok _ (resolveNamespace nsOpt) files h
  refine ⟨h2.1, ?_, h2.2.1, h2.2.2⟩
  simpa using congrArg List.length h2.2.1

/-- C3 witness: the two-file success scenario of the unit tests. -/
theorem C3_witness :
    (∀ f ∈ testFiles, ∃ r : CheckResult,
        vOkEcho f (resolveSources [] []) (resolveNamespace none) = Except.ok ⟨[r]⟩
        ∧ r.fileName = f ∧ r.nameSpace = resolveNamespace none)
    ∧ ((pipelineOutcome vOkEcho testFiles [] [] none).failures = []
        ∧ (pipelineOutcome vOkEcho testFiles [] [] none).results.length = testFiles.length
        ∧ (pipelineOutcome vOkEcho testFiles [] [] none).results.map CheckResult.fileName
            = testFiles
        ∧ ∀ r ∈ (pipelineOutcome vOkEcho testFiles [] [] none).results,
            r.nameSpace = resolveNamespace none) :=
  ⟨fun f _ => ⟨⟨f, resolveNamespace none, false, [], []⟩, rfl, rfl, rfl⟩,
    C3_report_matches_inputs vOkEcho testFiles [] [] none
      (fun f _ => ⟨⟨f, resolveNamespace none, false, [], []⟩, rfl, rfl, rfl⟩)⟩

/-- C4: the Policy Source Resolver emits every policy-kind entry first, in
given order, then every data-kind entry, in given order, dropping and
reordering nothing; the resolved sequence is what every invoker call of a
run receives; and the [A, B] x [C, D] example resolves as stated. -/
theorem C4_policy_sources_order (policies datas : List String) :
    (resolveSources policies datas).take policies.length
        = policies.map (fun u => PolicyUrl.mk u PolicyType.PolicyKind)
    ∧ (resolveSources policies datas).drop policies.length
        = datas.map (fun u => PolicyUrl.mk u PolicyType.DataKind)
    ∧ (resolveSources policies datas).map PolicyUrl.url = policies ++ datas
    ∧ (∀ (v : Invoker) (files : List String) (nsOpt : Option String),
        pipelineOutcome v files policies datas nsOpt
          = aggregateResults
              (fun f => v f (resolveSources policies datas) (resolveNamespace nsOpt))
              files)
    ∧ resolveSources ["spam-policy-source", "ham-policy-source"]
        ["bacon-data-source", "eggs-data-source"]
        = [⟨"spam-policy-source", PolicyType.PolicyKind⟩,
           ⟨"ham-policy-source", PolicyType.PolicyKind⟩,
           ⟨"bacon-data-source", PolicyType.DataKind⟩,
           ⟨"eggs-data-source", PolicyType.DataKind⟩] := by
  refine ⟨?_, ?_, ?_, fun _ _ _ => rfl, rfl⟩
  · rw [resolveSources,
      ← List.length_map policies (fun u => PolicyUrl.mk u PolicyType.PolicyKind),
      List.take_left]
  · rw [resolveSources,
      ← List.length_map policies (fun u => PolicyUrl.mk u PolicyType.PolicyKind),
      List.drop_left]
  · rw [resolveSources, List.map_append, List.map_map, List.map_map]
    have h1 : (PolicyUrl.url ∘ fun u => PolicyUrl.mk u PolicyType.PolicyKind) = id := rfl
    have h2 : (PolicyUrl.url ∘ fun u => PolicyUrl.mk u PolicyType.DataKind) = id := rfl
    rw [h1, h2, List.map_id, List.map_id]

/-- C5: one run invokes the validator exactly once per target file, in input
order, without retry or short-circuit, and collects exactly one failure per
failing file, in input order. -/
theorem C5_invoked_once_per_file (v : Invoker) (files policies datas : List String)
    (nsOpt : Option String) :
    (pipelineOutcome v files policies datas nsOpt).invoked = files
    ∧ (pipelineOutcome v files policies datas nsOpt).failures.map ValidationFailure.subject
        = files.filter (fun f =>
            isErr (v f (resolveSources policies datas) (resolveNamespace nsOpt)))
    ∧ (pipelineOutcome v files policies datas nsOpt).failures.length
        = (files.filter (fun f =>
            isErr (v f (resolveSources policies datas) (resolveNamespace nsOpt)))).length := by
  refine ⟨aggregateResults_invoked _ files, aggregateResults_failure_subjects _ files, ?_⟩
  rw [← aggregateResults_failure_subjects
    (fun f => v f (resolveSources policies datas) (resolveNamespace nsOpt)) files]
  exact (List.length_map _ _).symm

/-- C6: a successful run with no output option behaves as one default
`json` spec with no destination: exactly the JSON serialization of the
aggregated report reaches standard output, the filesystem is untouched, the
terminal error is none, and the serialization is structurally equal to the
report. -/
theorem C6_default_output_json_stdout (v : Invoker) (files policies datas : List String)
    (nsOpt : Option String) (fs0 : Fs)
    (h : (pipelineOutcome v files policies datas nsOpt).failures = []) :
    (validatePipelineCmd v files policies datas nsOpt [] fs0).stdout
        = renderJsonReport (pipelineOutcome v files policies datas nsOpt).results
    ∧ (∀ p, (validatePipelineCmd v files policies datas nsOpt [] fs0).fs p = fs0 p)
    ∧ (validatePipelineCmd v files policies datas nsOpt [] fs0).err = none
    ∧ renderOutputs (pipelineOutcome v files policies datas nsOpt).results []
        = renderOutputs (pipelineOutcome v files policies datas nsOpt).results
            [OutputSpec.mk OutputFormat.json none]
    ∧ decodeReport (encodeReportJ (pipelineOutcome v files policies datas nsOpt).results)
        = some (pipelineOutcome v files policies datas nsOpt).results := by
  refine ⟨?_, ?_, ?_, rfl, decodeReport_encodeReportJ _⟩
  all_goals
    simp [validatePipelineCmd, h, renderOutputs, effectiveSpecs, renderAll,
      renderFormat, applyWrites]

/-- C6 witness: the default-output success scenario of the unit tests. -/
theorem C6_witness :
    (pipelineOutcome vOkEcho testFiles [] [] none).failures = []
    ∧ ((validatePipelineCmd vOkEcho testFiles [] [] none [] fsEmpty).stdout
          = renderJsonReport (pipelineOutcome vOkEcho testFiles [] [] none).results
        ∧ (∀ p, (validatePipelineCmd vOkEcho testFiles [] [] none [] fsEmpty).fs p = fsEmpty p)
        ∧ (validatePipelineCmd vOkEcho testFiles [] [] none [] fsEmpty).err = none
        ∧ renderOutputs (pipelineOutcome vOkEcho testFiles [] [] none).results []
            = renderOutputs (pipelineOutcome vOkEcho testFiles [] [] none).results
                [OutputSpec.mk OutputFormat.json none]
        ∧ decodeReport (encodeReportJ (pipelineOutcome vOkEcho testFiles [] [] none).results)
            = some (pipelineOutcome vOkEcho testFiles [] [] none).results) :=
  ⟨by decide, C6_default_output_json_stdout vOkEcho testFiles [] [] none fsEmpty (by decide)⟩

/-- C7: a successful run with json=out.json and yaml=out.yaml and no bare
spec writes nothing to standard output, fully replaces the two named files
with the respective serializations whatever their prior content, touches no
other path, and both serializations decode back to the same aggregated
report. -/
theorem C7_two_file_outputs (v : Invoker) (files policies datas : List String)
    (nsOpt : Option String) (fs0 : Fs)
    (h : (pipelineOutcome v files policies datas nsOpt).failures = []) :
    (validatePipelineCmd v files policies datas nsOpt
        [⟨OutputFormat.json, some "out.json"⟩, ⟨OutputFormat.yaml, some "out.yaml"⟩]
        fs0).stdout = ""
    ∧ (validatePipelineCmd v files policies datas nsOpt
        [⟨OutputFormat.json, some "out.json"⟩, ⟨OutputFormat.yaml, some "out.yaml"⟩]
        fs0).fs "out.json"
        = some (renderJsonReport (pipelineOutcome v files policies datas nsOpt).results)
    ∧ (validatePipelineCmd v files policies datas nsOpt
        [⟨OutputFormat.json, some "out.json"⟩, ⟨OutputFormat.yaml, some "out.yaml"⟩]
        fs0).fs "out.yaml"
        = some (renderYamlReport (pipelineOutcome v files policies datas nsOpt).results)
    ∧ (∀ p, p ≠ "out.json" → p ≠ "out.yaml" →
        (validatePipelineCmd v files policies datas nsOpt
          [⟨OutputFormat.json, some "out.json"⟩, ⟨OutputFormat.yaml, some "out.yaml"⟩]
          fs0).fs p = fs0 p)
    ∧ (validatePipelineCmd v files policies datas nsOpt
        [⟨OutputFormat.json, some "out.json"⟩, ⟨OutputFormat.yaml, some "out.yaml"⟩]
        fs0).err = none
    ∧ decodeReport (encodeReportJ (pipelineOutcome v files policies datas nsOpt).results)
        = some (pipelineOutcome v files policies datas nsOpt).results
    ∧ decodeReport (encodeReportY (pipelineOutcome v files policies datas nsOpt).results)
        = some (pipelineOutcome v files policies datas nsOpt).results := by
  refine ⟨?_, ?_, ?_, ?_, ?_, decodeReport_encodeReportJ _, decodeReport_encodeReportY _⟩
  · simp [validatePipelineCmd, h, renderOutputs, effectiveSpecs, renderAll, renderFormat]
  · simp [validatePipelineCmd, h, renderOutputs, effectiveSpecs, renderAll,
      renderFormat, applyWrites]
  · simp [validatePipelineCmd, h, renderOutputs, effectiveSpecs, renderAll,
      renderFormat, applyWrites]
  · intro p hp1 hp2
    simp [validatePipelineCmd, h, renderOutputs, effectiveSpecs, renderAll,
      renderFormat, applyWrites, hp1, hp2]
  · simp [validatePipelineCmd, h]

/-- C7 witness: the json-and-yaml-to-file success scenario of the unit
tests, over the empty filesystem. -/
theorem C7_witness :
    (pipelineOutcome vOkEcho testFiles [] [] none).failures = []
    ∧ ((validatePipelineCmd vOkEcho testFiles [] [] none
          [⟨OutputFormat.json, some "out.json"⟩, ⟨OutputFormat.yaml, some "out.yaml"⟩]
          fsEmpty).stdout = ""
        ∧ (validatePipelineCmd vOkEcho testFiles [] [] none
            [⟨OutputFormat.json, some "out.json"⟩, ⟨OutputFormat.yaml, some "out.yaml"⟩]
            fsEmpty).fs "out.json"
            = some (renderJsonReport (pipelineOutcome vOkEcho testFiles [] [] none).results)
        ∧ (validatePipelineCmd vOkEcho testFiles [] [] none
            [⟨OutputFormat.json, some "out.json"⟩, ⟨OutputFormat.yaml, some "out.yaml"⟩]
            fsEmpty).fs "out.yaml"
            = some (renderYamlReport (pipelineOutcome vOkEcho testFiles [] [] none).results)
        ∧ (∀ p, p ≠ "out.json" → p ≠ "out.yaml" →
            (validatePipelineCmd vOkEcho testFiles [] [] none
              [⟨OutputFormat.json, some "out.json"⟩, ⟨OutputFormat.yaml, some "out.yaml"⟩]
              fsEmpty).fs p = fsEmpty p)
        ∧ (validatePipelineCmd vOkEcho testFiles [] [] none
            [⟨OutputFormat.json, some "out.json"⟩, ⟨OutputFormat.yaml, some "out.yaml"⟩]
            fsEmpty).err = none
        ∧ decodeReport (encodeReportJ (pipelineOutcome vOkEcho testFiles [] [] none).results)
            = some (pipelineOutcome vOkEcho testFiles [] [] none).results
        ∧ decodeReport (encodeReportY (pipelineOutcome vOkEcho testFiles [] [] none).results)
            = some (pipelineOutcome vOkEcho testFiles [] [] none).results) :=
  ⟨by decide, C7_two_file_outputs vOkEcho testFiles [] [] none fsEmpty (by decide)⟩

/-- C8: decoding the structural JSON or YAML serialization produced for any
aggregated report yields a check-result list structurally equal to the
report: no field of any entry and no entry order is lost. -/
theorem C8_serialization_roundtrip (rs : List CheckResult) :
    decodeReport (encodeReportJ rs) = some rs
    ∧ decodeReport (encodeReportY rs) = some rs :=
  ⟨decodeReport_encodeReportJ rs, decodeReport_encodeReportY rs⟩

/-- C9: with no namespace option supplied, the namespace resolves to
"pipeline.main", every Validation Invoker call of the run receives exactly
that string, and (for invokers echoing their namespace, as the unit test
doubles do) it appears as the namespace field of every report entry. -/
theorem C9_default_namespace (v : Invoker) (files policies datas : List String)
    (h : ∀ f ∈ files, ∃ r : CheckResult,
        v f (resolveSources policies datas) defaultNamespace = Except.ok ⟨[r]⟩
        ∧ r.fileName = f ∧ r.nameSpace = defaultNamespace) :
    resolveNamespace none = "pipeline.main"
    ∧ pipelineOutcome v files policies datas none
        = aggregateResults
            (fun f => v f (resolveSources policies datas) "pipeline.main") files
    ∧ ∀ r ∈ (pipelineOutcome v files policies datas none).results,
        r.nameSpace = "pipeline.main" := by
  refine ⟨rfl, rfl, ?_⟩
  exact (aggregateResults_singleton_ok _ defaultNamespace files h).2.2

/-- C9 witness: the namespace-less success scenario of the unit tests. -/
theorem C9_witness :
    (∀ f ∈ testFiles, ∃ r : CheckResult,
        vOkEcho f (resolveSources [] []) defaultNamespace = Except.ok ⟨[r]⟩
        ∧ r.fileName = f ∧ r.nameSpace = defaultNamespace)
    ∧ (resolveNamespace none = "pipeline.main"
        ∧ pipelineOutcome vOkEcho testFiles [] [] none
            = aggregateResults
                (fun f => vOkEcho f (resolveSources [] []) "pipeline.main") testFiles
        ∧ ∀ r ∈ (pipelineOutcome vOkEcho testFiles [] [] none).results,
            r.nameSpace = "pipeline.main") :=
  ⟨fun f _ => ⟨⟨f, defaultNamespace, false, [], []⟩, rfl, rfl, rfl⟩,
    C9_default_namespace vOkEcho testFiles [] []
      (fun f _ => ⟨⟨f, defaultNamespace, false, [], []⟩, rfl, rfl, rfl⟩)⟩

/-- C10: a check result with empty violation and warning lists serializes
with explicit empty-list values in both formats, never as omitted keys or
null, and the key order of a serialized record is fixed: filename,
namespace, violations, warnings, success for JSON; filename, namespace,
success, violations, warnings for YAML. -/
theorem intercalate_nil (s : String) : s.intercalate [] = "" := rfl

theorem C10_empty_lists_and_key_order (r : CheckResult)
    (hv : r.violations = []) (hw : r.warnings = []) :
    renderJsonResult r
      = "\x7b\"filename\":" ++ jsonString r.fileName
        ++ ",\"namespace\":" ++ jsonString r.nameSpace
        ++ ",\"violations\":[],\"warnings\":[],\"success\":"
        ++ (if r.success then "true" else "false") ++ "\x7d"
    ∧ renderYamlResult r
      = "- filename: " ++ r.fileName ++ "\n  namespace: " ++ r.nameSpace
        ++ "\n  success: " ++ (if r.success then "true" else "false")
        ++ "\n  violations: []\n  warnings: []\n"
    ∧ objKeys (encodeResultJ r)
        = ["filename", "namespace", "violations", "warnings", "success"]
    ∧ objKeys (encodeResultY r)
        = ["filename", "namespace", "success", "violations", "warnings"] := by
  refine ⟨?_, ?_, rfl, rfl⟩
  · simp [renderJsonResult, renderJsonViolations, hv, hw, intercalate_nil,
      String.append_assoc]
  · simp [renderYamlResult, renderYamlViolations, hv, hw, intercalate_nil,
      String.append_assoc]

/-- The report entry both unit-test scenarios render for the first file. -/
def testResult : CheckResult := ⟨"/path/file1.yaml", "pipeline.main", true, [], []⟩

/-- C10 witness: the test fixture entry renders to exactly the byte strings
the unit tests expect, in both formats. -/
theorem C10_witness :
    testResult.violations = []
    ∧ testResult.warnings = []
    ∧ renderJsonResult testResult
        = "\x7b\"filename\":\"/path/file1.yaml\",\"namespace\":\"pipeline.main\",\"violations\":[],\"warnings\":[],\"success\":true\x7d"
    ∧ renderYamlResult testResult
        = "- filename: /path/file1.yaml\n  namespace: pipeline.main\n  success: true\n  violations: []\n  warnings: []\n" := by
  refine ⟨rfl, rfl, ?_, ?_⟩
  · exact ((C10_empty_lists_and_key_order testResult rfl rfl).1).trans (by decide)
  · exact ((C10_empty_lists_and_key_order testResult rfl rfl).2.1).trans (by decide)

end ECCli
